import Mathlib

/-!
Shallow embedding of the scoped resource synchronization engine
(`src/renderer/components/+apps-releases/release.store.ts`, class `ReleaseStore`)
and verification of its specification claims.

Modelling conventions:
* Label sets (`secret.getLabels()`) are association lists `List (String × String)`;
  structural equality of label sets (lodash `isEqual`) is list equality.
* The observable map `releaseSecrets` is an association list `List (String × Secret)`
  built by `mapReplace`, which mirrors `ObservableMap.replace` on an entry array
  (later entries with the same key overwrite earlier ones).
* A reconciliation cycle's network outcomes are an explicit environment `FetchEnv`:
  `listReleases()` and `listReleases(namespace)` results are given as `Except`
  values, and `Promise.all` is the fail-fast aggregation `promiseAll`.
* `loadAll` is split in two phases, `loadAllStart` (the synchronous prefix before
  `await this.loadItems(...)`) and `loadAllSettle` (the `try`/`catch`/`finally`
  continuation), so that the in-flight state is a first-class value; `loadAll`
  is their composition.
* Fetch calls issued by `loadItems` are returned as an explicit `List FetchCall`
  so that call-count claims are statable.
* Mutators (`create`, `update`, `rollback`) return the propagated write result,
  the list of reload requests they fired (each request recorded by its namespace
  scope), and the store state they leave behind; the reload is fired without
  being awaited in the source, hence it is recorded as a request, not executed.
-/

/-- An opaque error value carried by rejected promises. -/
structure StoreError where
  msg : String
deriving DecidableEq, Repr

/-- A secondary item (Kubernetes secret): identity, namespace and label set. -/
structure Secret where
  id : String
  ns : String
  labels : List (String × String)
deriving DecidableEq, Repr

/-- Embeds `secret.getId()`. -/
def Secret.getId (s : Secret) : String := s.id

/-- Embeds `secret.getLabels()`. -/
def Secret.getLabels (s : Secret) : List (String × String) := s.labels

/-- A primary item (Helm release). Identity is `(namespace, name)`. -/
structure HelmRelease where
  name : String
  ns : String
deriving DecidableEq, Repr

/-- Embeds `release.getName()`. -/
def HelmRelease.getName (r : HelmRelease) : String := r.name

/-- Embeds `release.getNs()`. -/
def HelmRelease.getNs (r : HelmRelease) : String := r.ns

/-- One network call issued by `loadItems`: either the all-namespaces
`listReleases()` or a per-namespace `listReleases(namespace)`. -/
inductive FetchCall where
  | listAll : FetchCall
  | listByNamespace (ns : String) : FetchCall
deriving DecidableEq, Repr

/-- The namespace context consulted by the store
(`this.dependencies.namespaceStore.context`). -/
structure NamespaceContext where
  contextNamespaces : List String
  allNamespaces : List String
  accessibleNamespaces : List String
deriving DecidableEq, Repr

/-- The fetch outcomes of one reconciliation cycle: what `listReleases()` and
each `listReleases(namespace)` would resolve or reject with. -/
structure FetchEnv where
  listAllResult : Except StoreError (List HelmRelease)
  listByNamespaceResult : String → Except StoreError (List HelmRelease)

/-- The mutable state of the `ReleaseStore`: the Item Cache (`items` plus the
three status flags inherited from `ItemStore`), the Association Cache
(`releaseSecrets`), and the selection set used by bulk delete. -/
structure ReleaseStoreState where
  items : List HelmRelease
  isLoading : Bool
  isLoaded : Bool
  failedLoading : Bool
  releaseSecrets : List (String × Secret)
  selectedItems : List HelmRelease
deriving DecidableEq, Repr

/-- Association-list lookup of a label key (`labels[key]`). -/
def labelLookup (labels : List (String × String)) (k : String) : Option String :=
  (labels.find? (fun p => p.1 = k)).map (·.2)

/-- Whether a secret matches a label filter: every `(key, value)` pair of the
filter is present in the secret's labels (`SecretsStore.getByLabel` match). -/
def matchesLabels (s : Secret) (filterLabels : List (String × String)) : Bool :=
  filterLabels.all (fun kv => labelLookup s.labels kv.1 == some kv.2)

/-- Embeds `secretsStore.getByLabel(filter)`: the secrets of the secondary store whose
labels match the filter. -/
def getByLabel (allSecrets : List Secret) (filterLabels : List (String × String)) :
    List Secret :=
  allSecrets.filter (fun s => matchesLabels s filterLabels)

/-- Embeds `ReleaseStore.getReleaseSecrets()`: the secrets owned by helm, as
`(id, secret)` entries. -/
def getReleaseSecrets (allSecrets : List Secret) : List (String × Secret) :=
  (getByLabel allSecrets [("owner", "helm")]).map (fun s => (s.getId, s))

/-- Lookup in the Association Cache (`this.releaseSecrets.get(id)`). -/
def secretsLookup (m : List (String × Secret)) (id : String) : Option Secret :=
  (m.find? (fun p => p.1 = id)).map (·.2)

/-- Insert-or-overwrite of one entry into the Association Cache map. -/
def mapInsert (m : List (String × Secret)) (kv : String × Secret) :
    List (String × Secret) :=
  if m.any (fun p => p.1 == kv.1) then
    m.map (fun p => if p.1 == kv.1 then kv else p)
  else
    m ++ [kv]

/-- Embeds `ObservableMap.replace(entries)`: rebuild the map from an entry array;
later entries with the same key overwrite earlier ones. -/
def mapReplace (entries : List (String × Secret)) : List (String × Secret) :=
  entries.foldl mapInsert []

/-- Aggregation of `Promise.all` over already-settled outcomes: resolves with the list of all
values when every entry resolved, rejects with the first rejection otherwise. -/
def promiseAll : List (Except StoreError α) → Except StoreError (List α)
  | [] => .ok []
  | x :: xs =>
    match x with
    | .error e => .error e
    | .ok a => (promiseAll xs).map (fun rest => a :: rest)

/-- Modelled from the spec: `ItemStore.sortItems` is not under `src/`.
The spec says the Item Cache keeps a "sort order defined by a
subsystem-supplied comparator, e.g. by name"; we sort by name with a
stable insertion sort. -/
def orderedInsertByName (r : HelmRelease) : List HelmRelease → List HelmRelease
  | [] => [r]
  | x :: xs => if r.name ≤ x.name then r :: x :: xs else x :: orderedInsertByName r xs

/-- Modelled from the spec: the subsystem comparator sort applied by
`this.sortItems` before committing (see `orderedInsertByName`). -/
def sortItems : List HelmRelease → List HelmRelease
  | [] => []
  | x :: xs => orderedInsertByName x (sortItems xs)

/-- The `isLoadingAll` test of `ReleaseStore.loadItems`: more than one namespace
exists, the cluster's `accessibleNamespaces` restriction list is empty, and every
namespace of the cluster is within the requested `namespaces`. -/
def isLoadingAll (ctx : NamespaceContext) (namespaces : List String) : Bool :=
  decide (ctx.allNamespaces.length > 1)
    && decide (ctx.accessibleNamespaces.length = 0)
    && ctx.allNamespaces.all (fun ns => namespaces.contains ns)

/-- Embeds `ReleaseStore.loadItems(namespaces)`: the aggregated fetch outcome together
with the list of fetch calls issued. On the fast path one `listReleases()` call;
otherwise one `listReleases(ns)` per requested namespace, `Promise.all`-joined
and flattened. -/
def loadItems (ctx : NamespaceContext) (env : FetchEnv) (namespaces : List String) :
    Except StoreError (List HelmRelease) × List FetchCall :=
  if isLoadingAll ctx namespaces then
    (env.listAllResult, [FetchCall.listAll])
  else
    ((promiseAll (namespaces.map env.listByNamespaceResult)).map List.flatten,
      namespaces.map FetchCall.listByNamespace)

/-- The synchronous prefix of `ReleaseStore.loadAll` before the `await`:
`isLoading = true`, `isLoaded = false`. -/
def loadAllStart (s : ReleaseStoreState) : ReleaseStoreState :=
  { s with isLoading := true, isLoaded := false }

/-- The continuation of `ReleaseStore.loadAll` after `loadItems` settles: the
`try` success branch commits the sorted items and sets `isLoaded`, the `catch`
branch raises `failedLoading` (its console warning and user notification are
UI side effects outside the cache model), and the `finally` clears
`isLoading`. -/
def loadAllSettle (s : ReleaseStoreState)
    (result : Except StoreError (List HelmRelease)) : ReleaseStoreState :=
  match result with
  | .ok items =>
    { s with items := sortItems items, isLoaded := true, failedLoading := false,
             isLoading := false }
  | .error _ =>
    { s with failedLoading := true, isLoading := false }

/-- Embeds `ReleaseStore.loadAll(namespaces)` as one reconciliation cycle: start phase,
fetch via `loadItems`, settle phase. Returns the settled state and the fetch
calls issued. -/
def loadAll (ctx : NamespaceContext) (env : FetchEnv) (s : ReleaseStoreState)
    (namespaces : List String) : ReleaseStoreState × List FetchCall :=
  let fetched := loadItems ctx env namespaces
  (loadAllSettle (loadAllStart s) fetched.1, fetched.2)

/-- Embeds `ReleaseStore.loadFromContextNamespaces()`: a reload scoped to the
current context namespaces. -/
def loadFromContextNamespaces (ctx : NamespaceContext) (env : FetchEnv)
    (s : ReleaseStoreState) : ReleaseStoreState × List FetchCall :=
  loadAll ctx env s ctx.contextNamespaces

/-- The body of the `reaction` installed by `ReleaseStore.watchAssociatedSecrets`,
run on one change notification of the secondary (secrets) store. Returns the new
store state and whether `loadFromContextNamespaces` was triggered. -/
def onSecretsChanged (s : ReleaseStoreState) (allSecrets : List Secret) :
    ReleaseStoreState × Bool :=
  if s.isLoading then (s, false)
  else
    let newSecrets := getReleaseSecrets allSecrets
    let amountChanged := newSecrets.length != s.releaseSecrets.length
    let labelsChanged := newSecrets.any (fun p =>
      !((secretsLookup s.releaseSecrets p.1).map Secret.getLabels
          == some p.2.getLabels))
    ({ s with releaseSecrets := mapReplace newSecrets },
      amountChanged || labelsChanged)

/-- Embeds `ReleaseStore.create(payload)`: awaits the write, then — only if `isLoaded`
is currently true — fires (without awaiting) one `loadFromContextNamespaces`
reload scoped to the current context namespaces, and returns the response. The
triple is (propagated result, reload requests fired, state left behind). -/
def create (ctx : NamespaceContext) (s : ReleaseStoreState)
    (writeResult : Except StoreError α) :
    Except StoreError α × List (List String) × ReleaseStoreState :=
  match writeResult with
  | .error e => (.error e, [], s)
  | .ok resp =>
    (.ok resp, if s.isLoaded then [ctx.contextNamespaces] else [], s)

/-- Embeds `ReleaseStore.update(name, namespace, payload)`: same shape as `create`. -/
def update (ctx : NamespaceContext) (s : ReleaseStoreState)
    (_name _namespaceArg : String) (writeResult : Except StoreError α) :
    Except StoreError α × List (List String) × ReleaseStoreState :=
  match writeResult with
  | .error e => (.error e, [], s)
  | .ok resp =>
    (.ok resp, if s.isLoaded then [ctx.contextNamespaces] else [], s)

/-- Embeds `ReleaseStore.rollback(name, namespace, revision)`: same shape as `create`. -/
def rollback (ctx : NamespaceContext) (s : ReleaseStoreState)
    (_name _namespaceArg : String) (_revision : Nat)
    (writeResult : Except StoreError α) :
    Except StoreError α × List (List String) × ReleaseStoreState :=
  match writeResult with
  | .error e => (.error e, [], s)
  | .ok resp =>
    (.ok resp, if s.isLoaded then [ctx.contextNamespaces] else [], s)

/-- Modelled from the spec: `ItemStore.removeItem` is not under `src/`.
Per the spec, `delete` awaits the write operation; on success it removes the
item from the client-side selected-items set; on failure it propagates the
error to the caller without mutating the caches. -/
def removeItem (s : ReleaseStoreState) (item : HelmRelease)
    (deleteResult : Except StoreError Unit) :
    ReleaseStoreState × Except StoreError Unit :=
  match deleteResult with
  | .error e => (s, .error e)
  | .ok _ =>
    ({ s with selectedItems := s.selectedItems.filter (fun i => i != item) },
      .ok ())

/-- Embeds `ReleaseStore.removeSelectedItems()`:
`Promise.all(this.selectedItems.map(this.remove))`. Every selected item's
delete is processed independently of the others' outcomes (each success removes
the item from the selection even when another item's delete rejects); the
aggregate outcome is `Promise.all` over the per-item outcomes. -/
def removeSelectedItems (s : ReleaseStoreState)
    (deleteResult : HelmRelease → Except StoreError Unit) :
    ReleaseStoreState × Except StoreError (List Unit) :=
  (s.selectedItems.foldl (fun st item => (removeItem st item (deleteResult item)).1) s,
    promiseAll (s.selectedItems.map deleteResult))

/-! Concrete fixtures used by witnesses and counterexamples. -/

/-- A helm-owned secret with id `a`. -/
def secA : Secret := { id := "a", ns := "n", labels := [("owner", "helm")] }

/-- A helm-owned secret with id `b`. -/
def secB : Secret := { id := "b", ns := "n", labels := [("owner", "helm")] }

/-- A quiescent store state whose Association Cache holds `secA`. -/
def exampleState : ReleaseStoreState :=
  { items := [], isLoading := false, isLoaded := false, failedLoading := false,
    releaseSecrets := [("a", secA)], selectedItems := [] }

/-- A single-namespace cluster context. -/
def singleNsCtx : NamespaceContext :=
  { contextNamespaces := ["default"], allNamespaces := ["default"],
    accessibleNamespaces := [] }

/-- A two-namespace cluster context with no access restrictions. -/
def twoNsCtx : NamespaceContext :=
  { contextNamespaces := ["a", "b"], allNamespaces := ["a", "b"],
    accessibleNamespaces := [] }

/-- A fetch environment in which every call resolves with the empty list. -/
def emptyEnv : FetchEnv :=
  { listAllResult := .ok [], listByNamespaceResult := fun _ => .ok [] }

/-- A fetch environment in which namespace `b` rejects and every other
per-namespace call resolves. -/
def failBEnv : FetchEnv :=
  { listAllResult := .ok [],
    listByNamespaceResult := fun ns =>
      if ns = "b" then .error ⟨"request failed"⟩
      else .ok [{ name := "r1", ns := ns }] }

/-- The reload-trigger condition exactly as the specification claims it for a
secondary-store change notification: `isLoading` is false and either (a) the
number of owned secondary items differs from the Association Cache's size, or
(b) some secondary item present in BOTH the old and the new Association Cache
has a structurally different label set. Stated from the spec's words, to be
compared against the behaviour of `onSecretsChanged`. -/
def claimedReloadCondition (s : ReleaseStoreState) (allSecrets : List Secret) :
    Prop :=
  s.isLoading = false ∧
    ((getReleaseSecrets allSecrets).length ≠ s.releaseSecrets.length ∨
      ∃ id newSecret oldSecret,
        (id, newSecret) ∈ getReleaseSecrets allSecrets ∧
        secretsLookup s.releaseSecrets id = some oldSecret ∧
        newSecret.getLabels ≠ oldSecret.getLabels)

/-- The amended reload-trigger condition: as `claimedReloadCondition`, except
that in clause (b) a secondary item of the new Association Cache with no old
entry of the same id also counts as a label-set difference (the source compares
the fresh labels against `this.releaseSecrets.get(id)?.getLabels()`, which is
`undefined` for such an item). -/
def amendedReloadCondition (s : ReleaseStoreState) (allSecrets : List Secret) :
    Prop :=
  s.isLoading = false ∧
    ((getReleaseSecrets allSecrets).length ≠ s.releaseSecrets.length ∨
      ∃ id newSecret,
        (id, newSecret) ∈ getReleaseSecrets allSecrets ∧
        (secretsLookup s.releaseSecrets id).map Secret.getLabels
          ≠ some newSecret.getLabels)

/-- The per-namespace payload resolved by `perNsEnv`. -/
def perNsItems (ns : String) : List HelmRelease := [{ name := "r1", ns := ns }]

/-- A fetch environment in which every per-namespace call resolves with
`perNsItems`. -/
def perNsEnv : FetchEnv :=
  { listAllResult := .ok [], listByNamespaceResult := fun ns => .ok (perNsItems ns) }

/-- A selected release named `one`. -/
def rel1 : HelmRelease := { name := "one", ns := "n" }

/-- A selected release named `two`. -/
def rel2 : HelmRelease := { name := "two", ns := "n" }

/-- A selected release named `three`. -/
def rel3 : HelmRelease := { name := "three", ns := "n" }

/-- A store state with three selected releases. -/
def selState : ReleaseStoreState :=
  { items := [rel1, rel2, rel3], isLoading := false, isLoaded := true,
    failedLoading := false, releaseSecrets := [], selectedItems := [rel1, rel2, rel3] }

/-- Per-item delete outcomes in which only `rel2` rejects. -/
def fDel (r : HelmRelease) : Except StoreError Unit :=
  if r = rel2 then .error ⟨"delete failed"⟩ else .ok ()

/-! Helper lemmas about `Except` and `promiseAll`. -/

/-- Mapping over a rejection keeps the rejection. -/
theorem except_map_error (g : α → β) (e : StoreError) :
    (Except.error e : Except StoreError α).map g = .error e := rfl

/-- Mapping over a resolution maps the value. -/
theorem except_map_ok (g : α → β) (a : α) :
    (Except.ok a : Except StoreError α).map g = .ok (g a) := rfl

/-- A resolution is ok. -/
theorem except_isOk_ok (a : α) :
    (Except.ok a : Except StoreError α).isOk = true := rfl

/-- A rejection is not ok. -/
theorem except_isOk_error (e : StoreError) :
    (Except.error e : Except StoreError α).isOk = false := rfl

/-- Mapping preserves ok-ness. -/
theorem except_isOk_map (g : α → β) (r : Except StoreError α) :
    (r.map g).isOk = r.isOk := by
  cases r <;> rfl

/-- If one member of the list maps to a rejection, `promiseAll` rejects. -/
theorem promiseAll_error_of_mem (f : α → Except StoreError β) (l : List α)
    (x : α) (e : StoreError) (hmem : x ∈ l) (hf : f x = .error e) :
    ∃ e2, promiseAll (l.map f) = .error e2 := by
  induction l with
  | nil => cases hmem
  | cons y ys ih =>
    rcases List.mem_cons.mp hmem with hxy | hmem2
    · subst hxy
      exact ⟨e, by simp [promiseAll, hf]⟩
    · cases hy : f y with
      | error e3 => exact ⟨e3, by simp [promiseAll, hy]⟩
      | ok a =>
        obtain ⟨e2, he2⟩ := ih hmem2
        refine ⟨e2, ?_⟩
        simp only [List.map_cons, promiseAll, hy]
        rw [he2, except_map_error]

/-- If every member of the list maps to a resolution, `promiseAll` resolves
with the mapped values in order. -/
theorem promiseAll_map_ok (f : α → Except StoreError β) (g : α → β)
    (l : List α) (hok : ∀ x ∈ l, f x = .ok (g x)) :
    promiseAll (l.map f) = .ok (l.map g) := by
  induction l with
  | nil => rfl
  | cons y ys ih =>
    have hy := hok y (List.mem_cons_self y ys)
    have hrest := ih (fun x hx => hok x (List.mem_cons_of_mem y hx))
    simp only [List.map_cons, promiseAll, hy]
    rw [hrest, except_map_ok]

/-- The aggregate of `promiseAll` resolves exactly when every entry resolved. -/
theorem promiseAll_isOk (l : List (Except StoreError α)) :
    (promiseAll l).isOk = l.all (fun x => x.isOk) := by
  induction l with
  | nil => rfl
  | cons y ys ih =>
    cases y with
    | error e => simp [promiseAll, except_isOk_error]
    | ok a =>
      simp only [promiseAll, List.all_cons, except_isOk_ok, Bool.true_and,
        except_isOk_map]
      exact ih

/-- `promiseAll` rejects with the first rejection in order. -/
theorem promiseAll_first_error (f : α → Except StoreError β)
    (l1 : List α) (b : α) (l2 : List α) (e : StoreError)
    (hok : ∀ x ∈ l1, (f x).isOk = true) (hb : f b = .error e) :
    promiseAll ((l1 ++ b :: l2).map f) = .error e := by
  induction l1 with
  | nil => simp [promiseAll, hb]
  | cons y ys ih =>
    have hy := hok y (List.mem_cons_self y ys)
    obtain ⟨a, ha⟩ : ∃ a, f y = .ok a := by
      cases hfy : f y with
      | error e2 => rw [hfy, except_isOk_error] at hy; cases hy
      | ok a => exact ⟨a, rfl⟩
    have hrest := ih (fun x hx => hok x (List.mem_cons_of_mem y hx))
    rw [show (y :: ys) ++ b :: l2 = y :: (ys ++ b :: l2) from rfl]
    simp only [List.map_cons, promiseAll, ha]
    rw [hrest, except_map_error]

/-! Claim C1. -/

/-- C1: for every reload cycle in which at least one per-namespace fetch
rejects, no partial item list is committed: at settlement the Item Cache
equals its pre-cycle value and `failedLoading = true`. -/
theorem loadAll_partial_failure_commits_nothing
    (ctx : NamespaceContext) (env : FetchEnv) (s : ReleaseStoreState)
    (namespaces : List String) (ns : String) (e : StoreError)
    (hfan : isLoadingAll ctx namespaces = false)
    (hmem : ns ∈ namespaces)
    (hfail : env.listByNamespaceResult ns = .error e) :
    (loadAll ctx env s namespaces).1.items = s.items ∧
    (loadAll ctx env s namespaces).1.failedLoading = true := by
  obtain ⟨e2, he2⟩ :=
    promiseAll_error_of_mem env.listByNamespaceResult namespaces ns e hmem hfail
  simp only [loadAll, loadItems, hfan, Bool.false_eq_true, if_false]
  rw [he2, except_map_error]
  exact ⟨rfl, rfl⟩

/-- Witness for C1: with namespace `b` rejecting, the cycle over `[a, b]`
leaves the Item Cache untouched and raises `failedLoading`. -/
theorem loadAll_partial_failure_commits_nothing_witness :
    (loadAll singleNsCtx failBEnv exampleState ["a", "b"]).1.items
        = exampleState.items ∧
    (loadAll singleNsCtx failBEnv exampleState ["a", "b"]).1.failedLoading
        = true :=
  loadAll_partial_failure_commits_nothing singleNsCtx failBEnv exampleState
    ["a", "b"] "b" ⟨"request failed"⟩ (by decide) (by decide) rfl

/-! Claim C5. -/

/-- C5 counterexample: starting a reload from a state in which the previous
attempt failed does not clear `failedLoading` when entering the Loading state
(`loadAll` never writes `failedLoading` before its `try` block settles). -/
theorem loadAllStart_keeps_failedLoading_cex :
    (loadAllStart { exampleState with failedLoading := true }).failedLoading
      = true := rfl

/-- C5 amended: entering the Loading state leaves `failedLoading` unchanged;
the flag is set to `false` when the attempt succeeds and to `true` exactly
when the attempt fails. -/
theorem loadAll_failedLoading_lifecycle (s : ReleaseStoreState) :
    (loadAllStart s).failedLoading = s.failedLoading ∧
    (∀ items, (loadAllSettle (loadAllStart s) (.ok items)).failedLoading = false) ∧
    (∀ e, (loadAllSettle (loadAllStart s) (.error e)).failedLoading = true) :=
  ⟨rfl, fun _ => rfl, fun _ => rfl⟩

/-! Claim C6. -/

/-- C6 counterexample: a reload that fails settles with `isLoaded = false`
(the flag was cleared at the start of `loadAll` and the catch branch does not
restore it), refuting that `isLoaded` is true after every settlement. -/
theorem loadAll_failed_settlement_isLoaded_cex :
    (loadAll singleNsCtx failBEnv { exampleState with isLoaded := true }
      ["b"]).1.isLoaded = false := by decide

/-- C6 amended: after a successful settlement `isLoaded = true`; after a
failed settlement `isLoaded = false`, because `loadAll` clears it at the start
and only the success branch sets it again. -/
theorem loadAll_isLoaded_after_settlement (s : ReleaseStoreState) :
    (∀ items, (loadAllSettle (loadAllStart s) (.ok items)).isLoaded = true) ∧
    (∀ e, (loadAllSettle (loadAllStart s) (.error e)).isLoaded = false) :=
  ⟨fun _ => rfl, fun _ => rfl⟩

/-! Claim C10. -/

/-- C10: `loadAll` sets `isLoaded` to `false` at its start; while the reload
is in flight no other operation of the store sets it back (the secrets
reaction, `removeItem` and the mutators all preserve it), so a mutator whose
write completes during an in-flight reload fires no follow-up reload. -/
theorem inflight_reload_suppresses_mutator_reload (ctx : NamespaceContext)
    (s : ReleaseStoreState) :
    (loadAllStart s).isLoaded = false ∧
    (∀ allSecrets,
      (onSecretsChanged (loadAllStart s) allSecrets).1.isLoaded = false) ∧
    (∀ item res, (removeItem (loadAllStart s) item res).1.isLoaded = false) ∧
    (∀ (α : Type) (r : Except StoreError α),
      (create ctx (loadAllStart s) r).2.2 = loadAllStart s) ∧
    (∀ (α : Type) (resp : α),
      (create ctx (loadAllStart s) (Except.ok resp)).2.1 = []) ∧
    (∀ (α : Type) (name nsArg : String) (resp : α),
      (update ctx (loadAllStart s) name nsArg (Except.ok resp)).2.1 = []) ∧
    (∀ (α : Type) (name nsArg : String) (rev : Nat) (resp : α),
      (rollback ctx (loadAllStart s) name nsArg rev (Except.ok resp)).2.1 = []) := by
  refine ⟨rfl, fun allSecrets => ?_, fun item res => ?_, fun α r => ?_,
    fun α resp => ?_, fun α name nsArg resp => ?_,
    fun α name nsArg rev resp => ?_⟩
  · simp [onSecretsChanged, loadAllStart]
  · cases res <;> simp [removeItem, loadAllStart]
  · cases r <;> simp [create]
  · simp [create, loadAllStart]
  · simp [update, loadAllStart]
  · simp [rollback, loadAllStart]

/-! Claim C2. -/

/-- C2 counterexample: with the Association Cache holding only secret `a` and
the secondary store now holding only secret `b` (same count, no common item),
the claimed trigger condition is false, yet the reaction does trigger a reload,
because the source also fires when a fresh item has no old entry to compare
labels against. -/
theorem watchAssociatedSecrets_reload_iff_cex :
    (onSecretsChanged exampleState [secB]).2 = true ∧
    ¬ claimedReloadCondition exampleState [secB] := by
  constructor
  · decide
  · rintro ⟨-, hlen | ⟨id, nS, oS, hmem, hlook, -⟩⟩
    · exact hlen (by decide)
    · have h1 : getReleaseSecrets [secB] = [("b", secB)] := by decide
      rw [h1] at hmem
      have hid : id = "b" := congrArg Prod.fst (List.mem_singleton.mp hmem)
      subst hid
      have h2 : secretsLookup exampleState.releaseSecrets "b" = none := by decide
      rw [h2] at hlook
      cases hlook

/-- C2 amended: a secondary-store change notification triggers a reload if and
only if `isLoading` is false and either the owned-item count changed or some
item of the fresh Association Cache has a label set that differs structurally
from the old cache's entry of the same id, where a missing old entry counts as
a difference. -/
theorem watchAssociatedSecrets_reload_iff (s : ReleaseStoreState)
    (allSecrets : List Secret) :
    (onSecretsChanged s allSecrets).2 = true
      ↔ amendedReloadCondition s allSecrets := by
  unfold onSecretsChanged amendedReloadCondition
  by_cases hl : s.isLoading = true
  · simp [hl]
  · simp [hl, List.any_eq_true, bne_iff_ne, Prod.exists,
      Bool.not_eq_true', beq_eq_false_iff_ne, Bool.not_eq_true]

/-! Claim C3. -/

/-- C3 counterexample: a change notification arriving while `isLoading = true`
returns before the Association Cache refresh, so the cache is not replaced
with the freshly computed value. -/
theorem watchAssociatedSecrets_refresh_cex :
    (onSecretsChanged { exampleState with isLoading := true }
        [secB]).1.releaseSecrets
      ≠ mapReplace (getReleaseSecrets [secB]) := by decide

/-- C3 amended: on every secondary-store change notification processed while
`isLoading` is false, the Association Cache is replaced with the freshly
computed set of owned secondary items, whether or not a reload was triggered. -/
theorem watchAssociatedSecrets_refreshes_association_cache
    (s : ReleaseStoreState) (allSecrets : List Secret)
    (hl : s.isLoading = false) :
    (onSecretsChanged s allSecrets).1.releaseSecrets
      = mapReplace (getReleaseSecrets allSecrets) := by
  simp [onSecretsChanged, hl]

/-- Witness for the amended C3: a quiescent state processes a notification and
its Association Cache becomes the freshly computed one. -/
theorem watchAssociatedSecrets_refreshes_association_cache_witness :
    (onSecretsChanged exampleState [secB]).1.releaseSecrets
      = mapReplace (getReleaseSecrets [secB]) :=
  watchAssociatedSecrets_refreshes_association_cache exampleState [secB] rfl

/-! Claim C4. -/

/-- C4 counterexample: on a cluster exposing exactly one namespace, with no
access restrictions and a Scope Set covering every exposed namespace, the
reload still issues a per-namespace call instead of the single `listAll` call,
because the source's fast path additionally requires more than one namespace. -/
theorem loadItems_fast_path_cex :
    (∀ ns ∈ singleNsCtx.allNamespaces, ns ∈ ["default"]) ∧
    singleNsCtx.accessibleNamespaces = [] ∧
    (loadItems singleNsCtx emptyEnv ["default"]).2
      = [FetchCall.listByNamespace "default"] ∧
    (loadItems singleNsCtx emptyEnv ["default"]).2 ≠ [FetchCall.listAll] := by
  decide

/-- C4 amended: for every reload whose Scope Set covers every namespace the
cluster exposes, where the cluster exposes more than one namespace and the
access-control restriction list is empty, exactly one all-namespaces fetch
call (`listAll`) is issued, not one call per namespace. -/
theorem loadItems_all_namespaces_fast_path (ctx : NamespaceContext)
    (env : FetchEnv) (namespaces : List String)
    (hmulti : 1 < ctx.allNamespaces.length)
    (hacc : ctx.accessibleNamespaces = [])
    (hcover : ∀ ns ∈ ctx.allNamespaces, ns ∈ namespaces) :
    loadItems ctx env namespaces = (env.listAllResult, [FetchCall.listAll]) := by
  have hfast : isLoadingAll ctx namespaces = true := by
    unfold isLoadingAll
    simp only [hacc, List.length_nil, Bool.and_eq_true, decide_eq_true_eq,
      List.all_eq_true]
    refine ⟨⟨hmulti, trivial⟩, fun ns hns => ?_⟩
    exact List.elem_eq_true_of_mem (hcover ns hns)
  simp [loadItems, hfast]

/-- Witness for the amended C4: a two-namespace cluster with full scope issues
the single `listAll` call. -/
theorem loadItems_all_namespaces_fast_path_witness :
    loadItems twoNsCtx emptyEnv ["a", "b"]
      = (emptyEnv.listAllResult, [FetchCall.listAll]) :=
  loadItems_all_namespaces_fast_path twoNsCtx emptyEnv ["a", "b"]
    (by decide) rfl (by decide)

/-! Claim C7. -/

/-- C7: `create`, `update` and `rollback` each await the write; on success with
the Item Cache presently Loaded they fire exactly one reload scoped to the
current context namespaces and return the response, leaving the state behind
them unchanged; on failure they propagate the error, fire zero reloads and
leave the state unchanged. -/
theorem mutators_conditional_reload (ctx : NamespaceContext)
    (s : ReleaseStoreState) (α : Type) (resp : α) (e : StoreError) :
    (s.isLoaded = true → ∀ name nsArg rev,
      create ctx s (.ok resp) = (.ok resp, [ctx.contextNamespaces], s) ∧
      update ctx s name nsArg (.ok resp)
        = (.ok resp, [ctx.contextNamespaces], s) ∧
      rollback ctx s name nsArg rev (.ok resp)
        = (.ok resp, [ctx.contextNamespaces], s)) ∧
    (∀ name nsArg rev,
      create ctx s (.error e : Except StoreError α) = (.error e, [], s) ∧
      update ctx s name nsArg (.error e : Except StoreError α)
        = (.error e, [], s) ∧
      rollback ctx s name nsArg rev (.error e : Except StoreError α)
        = (.error e, [], s)) := by
  constructor
  · intro hld name nsArg rev
    refine ⟨?_, ?_, ?_⟩ <;> simp [create, update, rollback, hld]
  · intro name nsArg rev
    exact ⟨rfl, rfl, rfl⟩

/-- Witness for C7: on a Loaded store, a resolved `create` fires one reload
scoped to the context namespaces, and a rejected `create` propagates the error
and fires none. -/
theorem mutators_conditional_reload_witness :
    create singleNsCtx { exampleState with isLoaded := true } (Except.ok 7)
      = (Except.ok 7, [singleNsCtx.contextNamespaces],
          { exampleState with isLoaded := true }) ∧
    create singleNsCtx { exampleState with isLoaded := true }
        (Except.error ⟨"denied"⟩ : Except StoreError Nat)
      = (Except.error ⟨"denied"⟩, [], { exampleState with isLoaded := true }) := by
  have h := mutators_conditional_reload singleNsCtx
    { exampleState with isLoaded := true } Nat 7 ⟨"denied"⟩
  exact ⟨(h.1 rfl "x" "y" 0).1, (h.2 "x" "y" 0).1⟩

/-! Claim C8. -/

/-- C8: when the fast path does not apply, one `listByNamespace` call is issued
per namespace of the Scope Set, in order; when every call resolves, the settled
Item Cache is the comparator-sorted flat concatenation of the per-namespace
results, committed wholesale, with `isLoaded` set and `failedLoading` clear. -/
theorem loadAll_narrow_scope_fanout (ctx : NamespaceContext) (env : FetchEnv)
    (s : ReleaseStoreState) (namespaces : List String)
    (g : String → List HelmRelease)
    (hfan : isLoadingAll ctx namespaces = false)
    (hok : ∀ ns ∈ namespaces, env.listByNamespaceResult ns = .ok (g ns)) :
    (loadAll ctx env s namespaces).2
      = namespaces.map FetchCall.listByNamespace ∧
    (loadAll ctx env s namespaces).1.items
      = sortItems (namespaces.map g).flatten ∧
    (loadAll ctx env s namespaces).1.isLoaded = true ∧
    (loadAll ctx env s namespaces).1.failedLoading = false := by
  have hall := promiseAll_map_ok env.listByNamespaceResult g namespaces hok
  simp only [loadAll, loadItems, hfan, Bool.false_eq_true, if_false]
  rw [hall, except_map_ok]
  exact ⟨trivial, rfl, rfl, rfl⟩

/-- Witness for C8: a narrow-scope cycle over `[a, b]` issues exactly the two
per-namespace calls and commits the sorted concatenation of their results. -/
theorem loadAll_narrow_scope_fanout_witness :
    (loadAll singleNsCtx perNsEnv exampleState ["a", "b"]).2
      = [FetchCall.listByNamespace "a", FetchCall.listByNamespace "b"] ∧
    (loadAll singleNsCtx perNsEnv exampleState ["a", "b"]).1.items
      = sortItems ((["a", "b"].map perNsItems).flatten) := by
  have h := loadAll_narrow_scope_fanout singleNsCtx perNsEnv exampleState
    ["a", "b"] perNsItems (by decide) (fun ns _ => rfl)
  exact ⟨h.1, h.2.1⟩

/-! Claim C9. -/

/-- An item absent from the selection stays absent while the bulk-delete fold
processes further items (each step only filters the selection). -/
theorem removeSelected_fold_not_mem (f : HelmRelease → Except StoreError Unit)
    (l : List HelmRelease) (st : ReleaseStoreState) (x : HelmRelease)
    (hx : x ∉ st.selectedItems) :
    x ∉ (l.foldl (fun st item => (removeItem st item (f item)).1)
          st).selectedItems := by
  induction l generalizing st with
  | nil => exact hx
  | cons y ys ih =>
    apply ih
    cases hfy : f y with
    | error e => simpa [removeItem, hfy] using hx
    | ok a =>
      simp only [removeItem, hfy]
      intro hmem
      exact hx (List.mem_filter.mp hmem).1

/-- Every selected item whose delete resolves is removed from the selection by
the bulk-delete fold, regardless of the other items' outcomes. -/
theorem removeSelected_fold_removes (f : HelmRelease → Except StoreError Unit)
    (l : List HelmRelease) (st : ReleaseStoreState) (x : HelmRelease)
    (hx : x ∈ l) (hok : (f x).isOk = true) :
    x ∉ (l.foldl (fun st item => (removeItem st item (f item)).1)
          st).selectedItems := by
  induction l generalizing st with
  | nil => cases hx
  | cons y ys ih =>
    rcases List.mem_cons.mp hx with h | h
    · subst h
      rw [List.foldl_cons]
      apply removeSelected_fold_not_mem
      obtain ⟨a, ha⟩ : ∃ a, f x = .ok a := by
        cases hfx : f x with
        | error e => rw [hfx, except_isOk_error] at hok; cases hok
        | ok a => exact ⟨a, rfl⟩
      rw [ha]
      show x ∉ List.filter (fun i => i != x) st.selectedItems
      intro hmem
      have hxx := (List.mem_filter.mp hmem).2
      rw [bne_self_eq_false] at hxx
      cases hxx
    · exact ih _ h

/-- C9: `removeSelectedItems` deletes every selected item independently: the
aggregate resolves exactly when every per-item delete resolves; when a delete
rejects, the aggregate rejects with the first rejection in selection order; and
every item whose own delete resolves leaves the selection even when another
item's delete rejects. -/
theorem removeSelectedItems_aggregation (s : ReleaseStoreState)
    (f : HelmRelease → Except StoreError Unit) :
    ((removeSelectedItems s f).2.isOk = true
        ↔ ∀ item ∈ s.selectedItems, (f item).isOk = true) ∧
    (∀ l1 b l2 e, s.selectedItems = l1 ++ b :: l2 →
      (∀ x ∈ l1, (f x).isOk = true) → f b = .error e →
      (removeSelectedItems s f).2 = .error e) ∧
    (∀ item, item ∈ s.selectedItems → (f item).isOk = true →
      item ∉ (removeSelectedItems s f).1.selectedItems) := by
  refine ⟨?_, ?_, ?_⟩
  · show (promiseAll (s.selectedItems.map f)).isOk = true ↔ _
    rw [promiseAll_isOk]
    simp [List.all_eq_true]
  · intro l1 b l2 e hsel hok hb
    show promiseAll (s.selectedItems.map f) = .error e
    rw [hsel]
    exact promiseAll_first_error f l1 b l2 e hok hb
  · intro item hmem hok
    exact removeSelected_fold_removes f s.selectedItems s item hmem hok

/-- Witness for C9: among three selected releases where only the second one's
delete rejects, the aggregate rejects with that error while the first and
third releases still leave the selection. -/
theorem removeSelectedItems_aggregation_witness :
    (removeSelectedItems selState fDel).2 = .error ⟨"delete failed"⟩ ∧
    rel1 ∉ (removeSelectedItems selState fDel).1.selectedItems ∧
    rel3 ∉ (removeSelectedItems selState fDel).1.selectedItems := by
  have h := removeSelectedItems_aggregation selState fDel
  exact ⟨h.2.1 [rel1] rel2 [rel3] ⟨"delete failed"⟩ rfl (by decide) rfl,
    h.2.2 rel1 (by decide) (by decide),
    h.2.2 rel3 (by decide) (by decide)⟩
